import Mathlib

/-!
Shallow embedding of `app.py` of the EnergyDashboard repository.

The program is a Flask application over a SQLAlchemy database with tables
Home, Room, Sensor, Measurement, MeasurementType and MeasurementValue, a
background polling loop (`background_task` / `get_measurements` /
`get_measurement`), a relay-toggle helper (`toggle_relay`) and a
relay-toggle route (`toggle_sensor_relay`), plus CRUD routes.

The database is modelled as lists of rows with per-table autoincrement
counters.  HTTP is modelled by an oracle `net : String → HttpResult`
mapping each requested URL to either a raised exception or a response
with a status code and an optional parsed JSON body.  Parsed JSON bodies
are Python values (`PyVal`); note that in Python `bool` is a subclass of
`int`, which matters for the `isinstance(value, (int, float))` check in
`get_measurement`.  Timestamps are modelled as natural numbers supplied
by a clock, matching the per-insert `datetime.now` default of
`Measurement.timestamp`.

Commit semantics: each embedded operation returns the database state as
it is after the operation's `db.session.commit()`; when an operation
raises before reaching `commit`, the pre-call state is returned, since
flushed-but-uncommitted session changes are never persisted.
-/

namespace EnergyDashboard

/-- A Python value as produced by parsing a JSON body (`response.json()`).
Python keeps `int`, `float` and `bool` apart as runtime types, with `bool`
a subclass of `int`. -/
inductive PyVal where
  | int : Int → PyVal
  | float : Rat → PyVal
  | bool : Bool → PyVal
  | str : String → PyVal
  | pynone : PyVal
  | list : List PyVal → PyVal
  | dict : List (String × PyVal) → PyVal

/-- The check `isinstance(value, (int, float))` on line 77 of `app.py`.
Because `bool` is a subclass of `int` in Python, booleans pass it. -/
def isinstanceIntFloat : PyVal → Bool
  | .int _ => true
  | .float _ => true
  | .bool _ => true
  | _ => false

/-- Whether a JSON value is a number — an int or a float — in the sense
of the specification's words "value is numeric (int or float)".  A JSON
boolean is not a number. -/
def isJsonNumber : PyVal → Bool
  | .int _ => true
  | .float _ => true
  | _ => false

/-- The coercion applied when a Python value is stored into the `Float`
column `MeasurementValue.value` (`True` becomes 1.0, `False` 0.0). -/
def pyToFloat : PyVal → Rat
  | .int n => (n : Rat)
  | .float q => q
  | .bool b => if b then 1 else 0
  | _ => 0

/-- Row of table `home` (model class `Home`). -/
structure HomeRow where
  id : Nat
  name : String
deriving Repr, DecidableEq

/-- Row of table `room` (model class `Room`). -/
structure RoomRow where
  id : Nat
  name : String
  home_id : Nat
deriving Repr, DecidableEq

/-- Row of table `sensor` (model class `Sensor`); `data_endpoint` and
`relay_endpoint` are nullable columns. -/
structure SensorRow where
  id : Nat
  name : String
  url : String
  data_endpoint : Option String
  relay_endpoint : Option String
  room_id : Nat
deriving Repr, DecidableEq

/-- Row of table `measurement` (model class `Measurement`); the timestamp
is filled with the current time at insertion (`default=datetime.now`). -/
structure MeasurementRow where
  id : Nat
  sensor_id : Nat
  timestamp : Nat
deriving Repr, DecidableEq

/-- Row of table `measurement_type` (model class `MeasurementType`). -/
structure MeasurementTypeRow where
  id : Nat
  name : String
  unit : String
deriving Repr, DecidableEq

/-- Row of table `measurement_value` (model class `MeasurementValue`);
both foreign keys are `nullable=False` columns, hence plain `Nat` here. -/
structure MeasurementValueRow where
  id : Nat
  value : Rat
  measurement_id : Nat
  measurement_type_id : Nat
deriving Repr, DecidableEq

/-- The database: one list of rows per table, plus the autoincrement
counter of each table's integer primary key. -/
structure DB where
  homes : List HomeRow
  rooms : List RoomRow
  sensors : List SensorRow
  measurements : List MeasurementRow
  mtypes : List MeasurementTypeRow
  mvalues : List MeasurementValueRow
  nextHomeId : Nat
  nextRoomId : Nat
  nextSensorId : Nat
  nextMeasurementId : Nat
  nextTypeId : Nat
  nextValueId : Nat
deriving Repr, DecidableEq

/-- The empty database. -/
def DB.empty : DB := ⟨[], [], [], [], [], [], 1, 1, 1, 1, 1, 1⟩

/-- Result of one `requests.get` call: either the call raises
(connection error and the like), or it returns a response with a status
code and — when the body is valid JSON — the parsed body. -/
inductive HttpResult where
  | exn : HttpResult
  | resp (status : Nat) (body : Option PyVal) : HttpResult

/-- Outcome of one call to `get_measurement`: the returned value
(`some` measurement or the bare `return`), whether the call raised an
uncaught exception, the resulting committed database state, and the list
of URLs passed to `requests.get` during the call. -/
structure PollOutcome where
  result : Option MeasurementRow
  raised : Bool
  db : DB
  trace : List String
deriving Repr

/-- The per-entry loop of `get_measurement` (lines 76-86 of `app.py`):
for each JSON entry whose value passes `isinstance(value, (int, float))`,
look the `MeasurementType` up by name, create it with placeholder unit
"unit" when absent, and add a `MeasurementValue` referencing the
measurement `mid` and the type; other entries are only printed. -/
def ingestItems (db : DB) (mid : Nat) : List (String × PyVal) → DB
  | [] => db
  | (type_name, value) :: rest =>
    if isinstanceIntFloat value then
      match db.mtypes.find? (fun t => t.name == type_name) with
      | some t =>
        ingestItems
          { db with
            mvalues := db.mvalues ++ [⟨db.nextValueId, pyToFloat value, mid, t.id⟩],
            nextValueId := db.nextValueId + 1 } mid rest
      | none =>
        ingestItems
          { db with
            mtypes := db.mtypes ++ [⟨db.nextTypeId, type_name, "unit"⟩],
            nextTypeId := db.nextTypeId + 1,
            mvalues := db.mvalues ++ [⟨db.nextValueId, pyToFloat value, mid, db.nextTypeId⟩],
            nextValueId := db.nextValueId + 1 } mid rest
    else
      ingestItems db mid rest

/-- `get_measurement(sensor_id)` (lines 62-88 of `app.py`).

Paths, in source order: unknown sensor id → print and `return` (no row
touched); `sensor.data_endpoint` is NULL → `sensor.url + None` raises
`TypeError`; `requests.get` raises → uncaught; status other than 200 →
print and `return`; body not valid JSON → `response.json()` raises; body
a JSON value that is not an object → `data.items()` raises
`AttributeError` (after the measurement was flushed, but before `commit`,
so nothing is persisted); otherwise one `Measurement` stamped with the
current time is inserted, the entries are ingested by `ingestItems`, and
everything is committed. -/
def get_measurement (net : String → HttpResult) (now : Nat) (db : DB)
    (sensor_id : Nat) : PollOutcome :=
  match db.sensors.find? (fun s => s.id == sensor_id) with
  | none => ⟨none, false, db, []⟩
  | some sensor =>
    match sensor.data_endpoint with
    | none => ⟨none, true, db, []⟩
    | some ep =>
      let url := sensor.url ++ ep
      match net url with
      | .exn => ⟨none, true, db, [url]⟩
      | .resp status body =>
        if status == 200 then
          match body with
          | none => ⟨none, true, db, [url]⟩
          | some (.dict items) =>
            let m : MeasurementRow := ⟨db.nextMeasurementId, sensor.id, now⟩
            let db1 := { db with
              measurements := db.measurements ++ [m],
              nextMeasurementId := db.nextMeasurementId + 1 }
            ⟨some m, false, ingestItems db1 m.id items, [url]⟩
          | some _ => ⟨none, true, db, [url]⟩
        else ⟨none, false, db, [url]⟩

/-- The loop body of `get_measurements` over an explicit list of sensor
ids: polls each id in turn; an uncaught exception in `get_measurement`
propagates and aborts the loop, so the remaining ids are not polled. -/
def pollSensors (net : String → HttpResult) (now : Nat) (db : DB) :
    List Nat → DB × List String × Bool
  | [] => (db, [], false)
  | sid :: rest =>
    let o := get_measurement net now db sid
    if o.raised then (o.db, o.trace, true)
    else
      let r := pollSensors net now o.db rest
      (r.1, o.trace ++ r.2.1, r.2.2)

/-- `get_measurements()` (lines 90-94 of `app.py`): iterate over
`Sensor.query.all()` and poll each sensor once. -/
def get_measurements (net : String → HttpResult) (now : Nat) (db : DB) :
    DB × List String × Bool :=
  pollSensors net now db (db.sensors.map (fun s => s.id))

/-- An observable event of the polling loop: an outgoing HTTP
GET, or the `threading.Event().wait(interval_seconds)` pause. -/
inductive Event where
  | get : String → Event
  | sleep : Nat → Event
deriving Repr, DecidableEq

/-- The default of the `interval_seconds` parameter of
`background_task` (line 56 of `app.py`). -/
def background_task_default_interval : Nat := 60

/-- One iteration of the `while True` body of `background_task`:
`get_measurements()` followed by `threading.Event().wait(interval_seconds)`.
An exception propagating out of `get_measurements` kills the loop before
the wait. -/
def background_round (interval_seconds : Nat) (net : String → HttpResult)
    (now : Nat) (db : DB) : DB × List Event × Bool :=
  let r := get_measurements net now db
  if r.2.2 then (r.1, r.2.1.map Event.get, true)
  else (r.1, r.2.1.map Event.get ++ [Event.sleep interval_seconds], false)

/-- The first `rounds` iterations of `background_task(interval_seconds)`
(lines 56-60 of `app.py`).  `net k` and `clock k` are the network and the
current time during round `k`.  Once a round raises, the loop is dead and
later rounds contribute nothing. -/
def background_task (interval_seconds : Nat) (net : Nat → String → HttpResult)
    (clock : Nat → Nat) (db : DB) : Nat → DB × List Event × Bool
  | 0 => (db, [], false)
  | n + 1 =>
    let p := background_task interval_seconds net clock db n
    if p.2.2 then (p.1, p.2.1, true)
    else
      let r := background_round interval_seconds (net n) (clock n) p.1
      (r.1, p.2.1 ++ r.2.1, r.2.2)

/-- Python `+` restricted to the value shapes `toggle_relay` can feed it:
string + string concatenates, int + int adds, and a mixed pair raises
`TypeError` (`none`). -/
def pyAdd : PyVal → PyVal → Option PyVal
  | .str a, .str b => some (.str (a ++ b))
  | .int a, .int b => some (.int (a + b))
  | _, _ => none

/-- The argument expression of `requests.get` in `toggle_relay` (line 98
of `app.py`), parsed with Python's precedence, under which the
conditional binds loosest:
`(sensor.url + sensor.relay_endpoint + 1) if new_state == "on" else 0`.
`none` means the expression raises before `requests.get` is reached. -/
def toggle_relay_request_arg (sensor : SensorRow) (new_state : String) :
    Option PyVal :=
  if new_state == "on" then
    match sensor.relay_endpoint with
    | none => none
    | some rep =>
      (pyAdd (.str sensor.url) (.str rep)).bind (fun x => pyAdd x (.int 1))
  else
    some (.int 0)

/-- Observable action of the unused helper `toggle_relay` (lines 96-104
of `app.py`): either the argument expression raises inside the `try`
before `requests.get` runs (the exception is caught and printed, no HTTP
request happens), or `requests.get` is invoked with the computed
argument. -/
inductive RelayAction where
  | caughtError : RelayAction
  | requestArg : PyVal → RelayAction

/-- `toggle_relay(sensor, new_state)` (lines 96-104 of `app.py`). -/
def toggle_relay (sensor : SensorRow) (new_state : String) : RelayAction :=
  match toggle_relay_request_arg sensor new_state with
  | none => .caughtError
  | some a => .requestArg a

/-- The request the specification describes for a relay toggle: a single
GET to the sensor's url, concatenated with its relay endpoint,
concatenated with "1" when the requested state is "on" and "0"
otherwise. -/
def spec_relay_url (sensor : SensorRow) (rep : String) (new_state : String) :
    String :=
  sensor.url ++ rep ++ (if new_state == "on" then "1" else "0")

/-- Outcome of one HTTP route: response status (302 for a redirect), the
response body text for the 400 path, the committed database, and the
URLs passed to `requests.get` while handling the request. -/
structure RouteOutcome where
  status : Nat
  body : String
  db : DB
  trace : List String
deriving Repr

/-- The route `toggle_sensor_relay(sensor_id)` (lines 197-217 of
`app.py`): 404 when the sensor id is unknown; 400 with a message naming
the sensor when `sensor.relay_endpoint` is falsy (NULL or the empty
string), before any HTTP request; otherwise one GET to
url + relay_endpoint + ("1" for state "on", "0" otherwise), whose
exceptions are caught, then `get_measurement(sensor.id)`, whose
exceptions are not (status 500 here), then a redirect. -/
def toggle_sensor_relay (net : String → HttpResult) (now : Nat) (db : DB)
    (sensor_id : Nat) (state : Option String) : RouteOutcome :=
  match db.sensors.find? (fun s => s.id == sensor_id) with
  | none => ⟨404, "", db, []⟩
  | some sensor =>
    match sensor.relay_endpoint with
    | none =>
      ⟨400, "Sensor " ++ sensor.name ++ " has no relay endpoint configured.",
        db, []⟩
    | some rep =>
      if rep == "" then
        ⟨400, "Sensor " ++ sensor.name ++ " has no relay endpoint configured.",
          db, []⟩
      else
        let state_num := if state == some "on" then "1" else "0"
        let url := sensor.url ++ rep ++ state_num
        let o := get_measurement net now db sensor.id
        if o.raised then ⟨500, "", o.db, url :: o.trace⟩
        else ⟨302, "", o.db, url :: o.trace⟩

/-- The POST branch of the route `add_home` (lines 116-123 of `app.py`). -/
def add_home (db : DB) (name : String) : DB :=
  { db with
    homes := db.homes ++ [⟨db.nextHomeId, name⟩],
    nextHomeId := db.nextHomeId + 1 }

/-- The POST branch of the route `add_room` (lines 132-139 of `app.py`);
the given `home_id` is stored without any existence check. -/
def add_room (db : DB) (home_id : Nat) (name : String) : DB :=
  { db with
    rooms := db.rooms ++ [⟨db.nextRoomId, name, home_id⟩],
    nextRoomId := db.nextRoomId + 1 }

/-- The POST branch of the route `add_sensor` (lines 148-158 of
`app.py`): a new `Sensor` row is always inserted, with no uniqueness
check on any field. -/
def add_sensor (db : DB) (room_id : Nat) (name : String) (url : String)
    (data_endpoint : Option String) (relay_endpoint : Option String) : DB :=
  { db with
    sensors := db.sensors ++
      [⟨db.nextSensorId, name, url, data_endpoint, relay_endpoint, room_id⟩],
    nextSensorId := db.nextSensorId + 1 }

/-- The ids of the rooms of home `hid`. -/
def roomIdsOfHome (db : DB) (hid : Nat) : List Nat :=
  (db.rooms.filter (fun r => r.home_id == hid)).map (fun r => r.id)

/-- The ids of the sensors housed in any of the rooms `rids`. -/
def sensorIdsOfRooms (db : DB) (rids : List Nat) : List Nat :=
  (db.sensors.filter (fun s => rids.contains s.room_id)).map (fun s => s.id)

/-- The ids of the measurements taken by any of the sensors `sids`. -/
def measurementIdsOfSensors (db : DB) (sids : List Nat) : List Nat :=
  (db.measurements.filter (fun m => sids.contains m.sensor_id)).map
    (fun m => m.id)

/-- The `cascade="all, delete-orphan"` behaviour hanging off the sensors
`sids`: deleting these sensors also deletes their measurements and those
measurements' values. -/
def deleteSensorsCascade (db : DB) (sids : List Nat) : DB :=
  let mids := measurementIdsOfSensors db sids
  { db with
    sensors := db.sensors.filter (fun s => !(sids.contains s.id)),
    measurements := db.measurements.filter (fun m => !(sids.contains m.sensor_id)),
    mvalues := db.mvalues.filter (fun v => !(mids.contains v.measurement_id)) }

/-- The route `delete_sensor` (lines 160-165 of `app.py`): 404 (`none`)
when the id is unknown, otherwise the sensor and, by cascade, its
measurements and their values are deleted. -/
def delete_sensor (db : DB) (sid : Nat) : Option DB :=
  if db.sensors.any (fun s => s.id == sid) then
    some (deleteSensorsCascade db [sid])
  else none

/-- The route `delete_room` (lines 141-146 of `app.py`): 404 (`none`)
when the id is unknown, otherwise the room and, by cascade, its sensors
and their descendants are deleted. -/
def delete_room (db : DB) (rid : Nat) : Option DB :=
  if db.rooms.any (fun r => r.id == rid) then
    some
      (let db1 := deleteSensorsCascade db (sensorIdsOfRooms db [rid])
       { db1 with rooms := db1.rooms.filter (fun r => !(r.id == rid)) })
  else none

/-- The route `delete_home` (lines 125-130 of `app.py`): 404 (`none`)
when the id is unknown, otherwise the home and, by cascade, its rooms,
their sensors and all their descendants are deleted. -/
def delete_home (db : DB) (hid : Nat) : Option DB :=
  if db.homes.any (fun h => h.id == hid) then
    some
      (let db1 := deleteSensorsCascade db (sensorIdsOfRooms db (roomIdsOfHome db hid))
       { db1 with
         homes := db1.homes.filter (fun h => !(h.id == hid)),
         rooms := db1.rooms.filter (fun r => !(r.home_id == hid)) })
  else none

/-! ### Concrete data used by witnesses and counterexamples -/

/-- A concrete sensor with both endpoints configured. -/
def wSensor : SensorRow :=
  ⟨1, "boiler", "http://sensor.local", some "/data", some "/relay?state=", 1⟩

/-- A concrete sensor without a relay endpoint. -/
def wSensorNoRelay : SensorRow :=
  ⟨2, "lamp", "http://lamp.local", some "/data", none, 1⟩

/-- A further concrete sensor, polled after `wSensorNoRelay`. -/
def wSensorLast : SensorRow :=
  ⟨3, "tv", "http://tv.local", some "/data", none, 1⟩

/-- A concrete JSON body: one float entry, one boolean entry, one string
entry (the shape the repository's own `/test` endpoint serves). -/
def wBody : List (String × PyVal) :=
  [("power", .float (57 / 4)), ("relay", .bool true), ("status", .str "ok")]

/-- A concrete database: one home, one room, three sensors, and one
existing measurement with one value of the one existing type "power". -/
def wDB : DB :=
  ⟨[⟨1, "house"⟩], [⟨1, "kitchen", 1⟩], [wSensor, wSensorNoRelay, wSensorLast],
   [⟨1, 1, 0⟩], [⟨1, "power", "unit"⟩], [⟨1, 5, 1, 1⟩], 2, 2, 4, 2, 2, 2⟩

/-- A concrete database holding only `wSensor`. -/
def wDB1 : DB :=
  ⟨[⟨1, "house"⟩], [⟨1, "kitchen", 1⟩], [wSensor], [], [], [], 2, 2, 2, 1, 1, 1⟩

/-- A concrete network oracle: `wSensor`'s data endpoint answers 200 with
`wBody`; every other URL raises a connection error. -/
def wNet : String → HttpResult := fun url =>
  if url == "http://sensor.local/data" then .resp 200 (some (.dict wBody))
  else .exn

/-- A concrete network oracle on which every URL answers 200 with an
empty JSON object. -/
def wNetAll : String → HttpResult := fun _ => .resp 200 (some (.dict []))

/-- The database left by deleting home 1 from `wDB`. -/
def wDBAfterDeleteHome : DB := (delete_home wDB 1).getD DB.empty

/-- The database left by deleting room 1 from `wDB`. -/
def wDBAfterDeleteRoom : DB := (delete_room wDB 1).getD DB.empty

/-- The database left by deleting sensor 1 from `wDB`. -/
def wDBAfterDeleteSensor : DB := (delete_sensor wDB 1).getD DB.empty

/-! ### Helper lemmas about `ingestItems` -/

theorem ingestItems_homes (l : List (String × PyVal)) : ∀ (db : DB) (mid : Nat),
    (ingestItems db mid l).homes = db.homes := by
  induction l with
  | nil => intro db mid; rfl
  | cons p rest ih =>
    intro db mid
    obtain ⟨tn, v⟩ := p
    rw [ingestItems]
    split
    · split <;> exact ih _ _
    · exact ih _ _

theorem ingestItems_rooms (l : List (String × PyVal)) : ∀ (db : DB) (mid : Nat),
    (ingestItems db mid l).rooms = db.rooms := by
  induction l with
  | nil => intro db mid; rfl
  | cons p rest ih =>
    intro db mid
    obtain ⟨tn, v⟩ := p
    rw [ingestItems]
    split
    · split <;> exact ih _ _
    · exact ih _ _

theorem ingestItems_sensors (l : List (String × PyVal)) : ∀ (db : DB) (mid : Nat),
    (ingestItems db mid l).sensors = db.sensors := by
  induction l with
  | nil => intro db mid; rfl
  | cons p rest ih =>
    intro db mid
    obtain ⟨tn, v⟩ := p
    rw [ingestItems]
    split
    · split <;> exact ih _ _
    · exact ih _ _

theorem ingestItems_measurements (l : List (String × PyVal)) :
    ∀ (db : DB) (mid : Nat),
    (ingestItems db mid l).measurements = db.measurements := by
  induction l with
  | nil => intro db mid; rfl
  | cons p rest ih =>
    intro db mid
    obtain ⟨tn, v⟩ := p
    rw [ingestItems]
    split
    · split <;> exact ih _ _
    · exact ih _ _

/-- `ingestItems` only ever appends to the `measurement_type` table. -/
theorem ingestItems_mtypes_append (l : List (String × PyVal)) :
    ∀ (db : DB) (mid : Nat),
    ∃ ts, (ingestItems db mid l).mtypes = db.mtypes ++ ts := by
  induction l with
  | nil => intro db mid; exact ⟨[], by simp [ingestItems]⟩
  | cons p rest ih =>
    intro db mid
    obtain ⟨tn, v⟩ := p
    rw [ingestItems]
    split
    · split
      · exact ih _ _
      · obtain ⟨ts, hts⟩ := ih
          { db with
            mtypes := db.mtypes ++ [⟨db.nextTypeId, tn, "unit"⟩],
            nextTypeId := db.nextTypeId + 1,
            mvalues := db.mvalues ++ [⟨db.nextValueId, pyToFloat v, mid, db.nextTypeId⟩],
            nextValueId := db.nextValueId + 1 } mid
        exact ⟨⟨db.nextTypeId, tn, "unit"⟩ :: ts, by simp_all⟩
    · exact ih _ _

/-- `ingestItems` only ever appends to the `measurement_value` table, and
every appended row references the measurement `mid` and an existing
`MeasurementType` row. -/
theorem ingestItems_mvalues_spec (l : List (String × PyVal)) :
    ∀ (db : DB) (mid : Nat),
    ∃ new, (ingestItems db mid l).mvalues = db.mvalues ++ new ∧
      ∀ mv ∈ new, mv.measurement_id = mid ∧
        ∃ t ∈ (ingestItems db mid l).mtypes, t.id = mv.measurement_type_id := by
  induction l with
  | nil => intro db mid; exact ⟨[], by simp [ingestItems]⟩
  | cons p rest ih =>
    intro db mid
    obtain ⟨tn, v⟩ := p
    rw [ingestItems]
    split
    · rename_i hnum
      split
      · rename_i t hfind
        obtain ⟨new, hnew, hmem⟩ := ih
          { db with
            mvalues := db.mvalues ++ [⟨db.nextValueId, pyToFloat v, mid, t.id⟩],
            nextValueId := db.nextValueId + 1 } mid
        refine ⟨⟨db.nextValueId, pyToFloat v, mid, t.id⟩ :: new, by simp_all, ?_⟩
        intro mv hmv
        rcases List.mem_cons.mp hmv with h | h
        · subst h
          refine ⟨rfl, t, ?_, rfl⟩
          obtain ⟨ts, hts⟩ := ingestItems_mtypes_append rest
            { db with
              mvalues := db.mvalues ++ [⟨db.nextValueId, pyToFloat v, mid, t.id⟩],
              nextValueId := db.nextValueId + 1 } mid
          rw [hts]
          exact List.mem_append_left _ (List.mem_of_find?_eq_some hfind)
        · exact hmem mv h
      · rename_i hfind
        obtain ⟨new, hnew, hmem⟩ := ih
          { db with
            mtypes := db.mtypes ++ [⟨db.nextTypeId, tn, "unit"⟩],
            nextTypeId := db.nextTypeId + 1,
            mvalues := db.mvalues ++ [⟨db.nextValueId, pyToFloat v, mid, db.nextTypeId⟩],
            nextValueId := db.nextValueId + 1 } mid
        refine ⟨⟨db.nextValueId, pyToFloat v, mid, db.nextTypeId⟩ :: new, by simp_all, ?_⟩
        intro mv hmv
        rcases List.mem_cons.mp hmv with h | h
        · subst h
          refine ⟨rfl, ⟨db.nextTypeId, tn, "unit"⟩, ?_, rfl⟩
          obtain ⟨ts, hts⟩ := ingestItems_mtypes_append rest
            { db with
              mtypes := db.mtypes ++ [⟨db.nextTypeId, tn, "unit"⟩],
              nextTypeId := db.nextTypeId + 1,
              mvalues := db.mvalues ++ [⟨db.nextValueId, pyToFloat v, mid, db.nextTypeId⟩],
              nextValueId := db.nextValueId + 1 } mid
          rw [hts]
          simp
        · exact hmem mv h
    · exact ih _ _

/-- `ingestItems` adds exactly one `MeasurementValue` row per entry that
passes the `isinstance(value, (int, float))` check. -/
theorem ingestItems_mvalues_length (l : List (String × PyVal)) :
    ∀ (db : DB) (mid : Nat),
    (ingestItems db mid l).mvalues.length =
      db.mvalues.length + (l.filter (fun p => isinstanceIntFloat p.2)).length := by
  induction l with
  | nil => intro db mid; simp [ingestItems]
  | cons p rest ih =>
    intro db mid
    obtain ⟨tn, v⟩ := p
    rw [ingestItems]
    split
    · rename_i hnum
      split <;> · rw [ih] ; simp [List.filter, hnum] ; omega
    · rename_i hnum
      rw [ih]
      simp only [List.filter]
      rw [Bool.not_eq_true] at hnum
      simp [hnum]

/-- Lookup-or-create preserves pairwise-distinct `MeasurementType` names:
a new row is only created when the `filter_by(name=...)` lookup found
nothing. -/
theorem ingestItems_mtypes_nodup (l : List (String × PyVal)) :
    ∀ (db : DB) (mid : Nat),
    (db.mtypes.map (fun t => t.name)).Nodup →
    ((ingestItems db mid l).mtypes.map (fun t => t.name)).Nodup := by
  induction l with
  | nil => intro db mid h; simpa [ingestItems] using h
  | cons p rest ih =>
    intro db mid h
    obtain ⟨tn, v⟩ := p
    rw [ingestItems]
    split
    · split
      · exact ih _ _ h
      · rename_i hfind
        apply ih
        have hnotin : tn ∉ db.mtypes.map (fun t => t.name) := by
          intro hmem
          obtain ⟨t, ht, hname⟩ := List.mem_map.mp hmem
          exact absurd (List.find?_eq_none.mp hfind t ht) (by simp [hname])
        simp [List.nodup_append, h, hnotin]
    · exact ih _ _ h

/-! ### Helper lemmas about `get_measurement` -/

/-- The fully successful path of `get_measurement`: known sensor id,
configured data endpoint, status 200, body a JSON object. -/
theorem get_measurement_success (net : String → HttpResult) (now : Nat)
    (db : DB) (sid : Nat) (s : SensorRow) (ep : String)
    (items : List (String × PyVal))
    (hs : db.sensors.find? (fun t => t.id == sid) = some s)
    (hep : s.data_endpoint = some ep)
    (hnet : net (s.url ++ ep) = .resp 200 (some (.dict items))) :
    get_measurement net now db sid =
      ⟨some ⟨db.nextMeasurementId, s.id, now⟩, false,
       ingestItems
         { db with
           measurements := db.measurements ++ [⟨db.nextMeasurementId, s.id, now⟩],
           nextMeasurementId := db.nextMeasurementId + 1 }
         db.nextMeasurementId items,
       [s.url ++ ep]⟩ := by
  simp [get_measurement, hs, hep, hnet]

/-- Inversion for `get_measurement`: either the call takes one of the
error or early-`return` paths, in which case the committed database is
unchanged and no measurement is returned, or the call takes the fully
successful path of `get_measurement_success`. -/
theorem get_measurement_cases (net : String → HttpResult) (now : Nat)
    (db : DB) (sid : Nat) :
    ((get_measurement net now db sid).db = db ∧
     (get_measurement net now db sid).result = none) ∨
    ∃ s ep items,
      db.sensors.find? (fun t => t.id == sid) = some s ∧
      s.data_endpoint = some ep ∧
      net (s.url ++ ep) = .resp 200 (some (.dict items)) ∧
      get_measurement net now db sid =
        ⟨some ⟨db.nextMeasurementId, s.id, now⟩, false,
         ingestItems
           { db with
             measurements :=
               db.measurements ++ [⟨db.nextMeasurementId, s.id, now⟩],
             nextMeasurementId := db.nextMeasurementId + 1 }
           db.nextMeasurementId items,
         [s.url ++ ep]⟩ := by
  cases hfind : db.sensors.find? (fun s => s.id == sid) with
  | none => exact Or.inl (by simp [get_measurement, hfind])
  | some s =>
    cases hep : s.data_endpoint with
    | none => exact Or.inl (by simp [get_measurement, hfind, hep])
    | some ep =>
      cases hnet : net (s.url ++ ep) with
      | exn => exact Or.inl (by simp [get_measurement, hfind, hep, hnet])
      | resp status body =>
        by_cases hst : status = 200
        · subst hst
          cases body with
          | none => exact Or.inl (by simp [get_measurement, hfind, hep, hnet])
          | some pv =>
            cases pv with
            | dict items =>
              refine Or.inr ⟨s, ep, items, ?_, ?_, ?_,
                get_measurement_success net now db sid s ep items hfind hep hnet⟩
              · rfl
              · exact hep
              · exact hnet
            | _ => exact Or.inl (by simp [get_measurement, hfind, hep, hnet])
        · exact Or.inl (by simp [get_measurement, hfind, hep, hnet, hst])

/-- `get_measurement` never touches the `sensor` table. -/
theorem get_measurement_sensors (net : String → HttpResult) (now : Nat)
    (db : DB) (sid : Nat) :
    (get_measurement net now db sid).db.sensors = db.sensors := by
  rcases get_measurement_cases net now db sid with ⟨hdb, _⟩ | ⟨s, ep, items, _, _, _, heq⟩
  · rw [hdb]
  · rw [heq]; exact ingestItems_sensors items _ _

/-- `get_measurement` never touches the `home` table. -/
theorem get_measurement_homes (net : String → HttpResult) (now : Nat)
    (db : DB) (sid : Nat) :
    (get_measurement net now db sid).db.homes = db.homes := by
  rcases get_measurement_cases net now db sid with ⟨hdb, _⟩ | ⟨s, ep, items, _, _, _, heq⟩
  · rw [hdb]
  · rw [heq]; exact ingestItems_homes items _ _

/-- `get_measurement` never touches the `room` table. -/
theorem get_measurement_rooms (net : String → HttpResult) (now : Nat)
    (db : DB) (sid : Nat) :
    (get_measurement net now db sid).db.rooms = db.rooms := by
  rcases get_measurement_cases net now db sid with ⟨hdb, _⟩ | ⟨s, ep, items, _, _, _, heq⟩
  · rw [hdb]
  · rw [heq]; exact ingestItems_rooms items _ _

/-- Every `MeasurementValue` row after a `get_measurement` call is either
a pre-existing row, unchanged, or a row of the measurement returned by
this very call, referencing an existing `MeasurementType`. -/
theorem get_measurement_mvalues (net : String → HttpResult) (now : Nat)
    (db : DB) (sid : Nat) :
    ∀ mv ∈ (get_measurement net now db sid).db.mvalues,
      mv ∈ db.mvalues ∨
      ∃ m, (get_measurement net now db sid).result = some m ∧
        mv.measurement_id = m.id ∧
        ∃ t ∈ (get_measurement net now db sid).db.mtypes,
          t.id = mv.measurement_type_id := by
  rcases get_measurement_cases net now db sid with ⟨hdb, _⟩ | ⟨s, ep, items, _, _, _, heq⟩
  · rw [hdb]; exact fun mv hmv => Or.inl hmv
  · rw [heq]
    intro mv hmv
    obtain ⟨new, hnew, hmem⟩ := ingestItems_mvalues_spec items
      { db with
        measurements := db.measurements ++ [⟨db.nextMeasurementId, s.id, now⟩],
        nextMeasurementId := db.nextMeasurementId + 1 }
      db.nextMeasurementId
    simp only [hnew] at hmv
    rcases List.mem_append.mp hmv with h | h
    · exact Or.inl h
    · obtain ⟨hmid, t, ht, htid⟩ := hmem mv h
      exact Or.inr ⟨⟨db.nextMeasurementId, s.id, now⟩, rfl, hmid, t, ht, htid⟩

/-- `get_measurement` preserves pairwise-distinct `MeasurementType`
names. -/
theorem get_measurement_mtypes_nodup (net : String → HttpResult) (now : Nat)
    (db : DB) (sid : Nat)
    (h : (db.mtypes.map (fun t => t.name)).Nodup) :
    ((get_measurement net now db sid).db.mtypes.map (fun t => t.name)).Nodup := by
  rcases get_measurement_cases net now db sid with ⟨hdb, _⟩ | ⟨s, ep, items, _, _, _, heq⟩
  · rw [hdb]; exact h
  · rw [heq]; exact ingestItems_mtypes_nodup items _ _ h

/-- The path of `get_measurement` on which `requests.get` itself raises:
the exception is uncaught and nothing is committed. -/
theorem get_measurement_exn (net : String → HttpResult) (now : Nat)
    (db : DB) (sid : Nat) (s : SensorRow) (ep : String)
    (hfind : db.sensors.find? (fun t => t.id == sid) = some s)
    (hep : s.data_endpoint = some ep)
    (hnet : net (s.url ++ ep) = .exn) :
    get_measurement net now db sid = ⟨none, true, db, [s.url ++ ep]⟩ := by
  simp [get_measurement, hfind, hep, hnet]

/-! ### Helper lemmas about `pollSensors` and `background_task` -/

/-- In a sensor table with pairwise-distinct ids, `Sensor.query.get(s.id)`
returns `s` itself. -/
theorem find?_sensor_of_nodup (l : List SensorRow)
    (hnd : (l.map (fun s => s.id)).Nodup) :
    ∀ s ∈ l, l.find? (fun t => t.id == s.id) = some s := by
  induction l with
  | nil => intro s hs; cases hs
  | cons a rest ih =>
    intro s hs
    rw [List.map_cons, List.nodup_cons] at hnd
    rcases List.mem_cons.mp hs with rfl | hs'
    · exact List.find?_cons_of_pos _ (by simp)
    · have hne : (a.id == s.id) = false := by
        refine beq_eq_false_iff_ne.mpr (fun hid => hnd.1 ?_)
        exact hid ▸ List.mem_map_of_mem (fun s => s.id) hs'
      rw [List.find?_cons_of_neg _ (by simp [hne])]
      exact ih hnd.2 s hs'

/-- `pollSensors` never touches the `sensor` table. -/
theorem pollSensors_sensors (sids : List Nat) :
    ∀ (net : String → HttpResult) (now : Nat) (db : DB),
    (pollSensors net now db sids).1.sensors = db.sensors := by
  induction sids with
  | nil => intro net now db; rfl
  | cons sid rest ih =>
    intro net now db
    rw [pollSensors]
    by_cases h : (get_measurement net now db sid).raised
    · simp [h, get_measurement_sensors]
    · simp [h, ih, get_measurement_sensors]

/-- A round in which every polled sensor succeeds: sensors are polled in
table order, each contributes exactly one GET to its data URL and exactly
one new `Measurement` row, and the loop does not raise. -/
theorem pollSensors_success (ss : List SensorRow) :
    ∀ (net : String → HttpResult) (now : Nat) (db : DB),
    (∀ s ∈ ss, db.sensors.find? (fun t => t.id == s.id) = some s) →
    (∀ s ∈ ss, ∃ ep items, s.data_endpoint = some ep ∧
        net (s.url ++ ep) = .resp 200 (some (.dict items))) →
    (pollSensors net now db (ss.map (fun s => s.id))).2.2 = false ∧
    (pollSensors net now db (ss.map (fun s => s.id))).2.1 =
      ss.map (fun s => s.url ++ s.data_endpoint.getD "") ∧
    (pollSensors net now db (ss.map (fun s => s.id))).1.measurements.length =
      db.measurements.length + ss.length := by
  induction ss with
  | nil => intro net now db h1 h2; exact ⟨rfl, rfl, rfl⟩
  | cons s rest ih =>
    intro net now db h1 h2
    obtain ⟨ep, items, hep, hnet⟩ := h2 s (List.mem_cons_self s rest)
    have hfind := h1 s (List.mem_cons_self s rest)
    have hsucc := get_measurement_success net now db s.id s ep items hfind hep hnet
    rw [List.map_cons, pollSensors, hsucc]
    have hsens : (ingestItems
        { db with
          measurements := db.measurements ++ [⟨db.nextMeasurementId, s.id, now⟩],
          nextMeasurementId := db.nextMeasurementId + 1 }
        db.nextMeasurementId items).sensors = db.sensors := by
      rw [ingestItems_sensors]
    have hmeas : (ingestItems
        { db with
          measurements := db.measurements ++ [⟨db.nextMeasurementId, s.id, now⟩],
          nextMeasurementId := db.nextMeasurementId + 1 }
        db.nextMeasurementId items).measurements =
        db.measurements ++ [⟨db.nextMeasurementId, s.id, now⟩] := by
      rw [ingestItems_measurements]
    obtain ⟨hr, htr, hlen⟩ := ih net now
      (ingestItems
        { db with
          measurements := db.measurements ++ [⟨db.nextMeasurementId, s.id, now⟩],
          nextMeasurementId := db.nextMeasurementId + 1 }
        db.nextMeasurementId items)
      (by intro t ht; rw [hsens]; exact h1 t (List.mem_cons_of_mem s ht))
      (fun t ht => h2 t (List.mem_cons_of_mem s ht))
    refine ⟨by simpa using hr, ?_, ?_⟩
    · simp only [List.map_cons]
      have : s.data_endpoint.getD "" = ep := by rw [hep]; rfl
      simp [htr, this]
    · simp only [List.length_cons]
      simp [hlen, hmeas]
      omega

/-- A round in which the sensors `pre` succeed and then the fetch of
sensor `bad` raises: each sensor of `pre` and `bad` itself are polled
exactly once (one GET each, in order), the exception propagates, and the
ids listed after `bad` are never polled. -/
theorem pollSensors_raise (pre : List SensorRow) :
    ∀ (net : String → HttpResult) (now : Nat) (db : DB) (bad : SensorRow)
      (bep : String) (rest : List Nat),
    (∀ s ∈ pre, db.sensors.find? (fun t => t.id == s.id) = some s) →
    (∀ s ∈ pre, ∃ ep items, s.data_endpoint = some ep ∧
        net (s.url ++ ep) = .resp 200 (some (.dict items))) →
    db.sensors.find? (fun t => t.id == bad.id) = some bad →
    bad.data_endpoint = some bep →
    net (bad.url ++ bep) = .exn →
    (pollSensors net now db (pre.map (fun s => s.id) ++ bad.id :: rest)).2.2 = true ∧
    (pollSensors net now db (pre.map (fun s => s.id) ++ bad.id :: rest)).2.1 =
      pre.map (fun s => s.url ++ s.data_endpoint.getD "") ++ [bad.url ++ bep] := by
  induction pre with
  | nil =>
    intro net now db bad bep rest h1 h2 hfind hep hnet
    rw [List.map_nil, List.nil_append, pollSensors,
      get_measurement_exn net now db bad.id bad bep hfind hep hnet]
    exact ⟨rfl, rfl⟩
  | cons s pre' ih =>
    intro net now db bad bep rest h1 h2 hfind hep hnet
    obtain ⟨ep, items, hsep, hsnet⟩ := h2 s (List.mem_cons_self s pre')
    have hsfind := h1 s (List.mem_cons_self s pre')
    have hsucc := get_measurement_success net now db s.id s ep items hsfind hsep hsnet
    rw [List.map_cons, List.cons_append, pollSensors, hsucc]
    have hsens : (ingestItems
        { db with
          measurements := db.measurements ++ [⟨db.nextMeasurementId, s.id, now⟩],
          nextMeasurementId := db.nextMeasurementId + 1 }
        db.nextMeasurementId items).sensors = db.sensors := by
      rw [ingestItems_sensors]
    obtain ⟨hr, htr⟩ := ih net now
      (ingestItems
        { db with
          measurements := db.measurements ++ [⟨db.nextMeasurementId, s.id, now⟩],
          nextMeasurementId := db.nextMeasurementId + 1 }
        db.nextMeasurementId items)
      bad bep rest
      (by intro t ht; rw [hsens]; exact h1 t (List.mem_cons_of_mem s ht))
      (fun t ht => h2 t (List.mem_cons_of_mem s ht))
      (by rw [hsens]; exact hfind) hep hnet
    refine ⟨by simpa using hr, ?_⟩
    have hgd : s.data_endpoint.getD "" = ep := by rw [hsep]; rfl
    simp [htr, hgd]

/-- Once a round of `background_task` has raised, the loop is dead:
running any number of further rounds changes nothing. -/
theorem background_task_raised_stable (interval : Nat)
    (net : Nat → String → HttpResult) (clock : Nat → Nat) (db : DB) (n : Nat)
    (h : (background_task interval net clock db n).2.2 = true) :
    ∀ k, background_task interval net clock db (n + k) =
      background_task interval net clock db n := by
  intro k
  induction k with
  | zero => rfl
  | succ k ih =>
    rw [← Nat.add_assoc, background_task, ih, h]
    simp only [if_true]
    rw [← h]

/-- Surviving rows of `deleteSensorsCascade` are original rows outside
the deleted id chains; the other tables are untouched. -/
theorem deleteSensorsCascade_spec (db : DB) (sids : List Nat) :
    (∀ s ∈ (deleteSensorsCascade db sids).sensors,
      s ∈ db.sensors ∧ ¬ s.id ∈ sids) ∧
    (∀ m ∈ (deleteSensorsCascade db sids).measurements,
      m ∈ db.measurements ∧ ¬ m.sensor_id ∈ sids) ∧
    (∀ v ∈ (deleteSensorsCascade db sids).mvalues,
      v ∈ db.mvalues ∧ ¬ v.measurement_id ∈ measurementIdsOfSensors db sids) ∧
    (deleteSensorsCascade db sids).homes = db.homes ∧
    (deleteSensorsCascade db sids).rooms = db.rooms ∧
    (deleteSensorsCascade db sids).mtypes = db.mtypes := by
  refine ⟨?_, ?_, ?_, rfl, rfl, rfl⟩
  · intro s hs
    simp only [deleteSensorsCascade, List.mem_filter, Bool.not_eq_true'] at hs
    exact ⟨hs.1, by simpa using hs.2⟩
  · intro m hm
    simp only [deleteSensorsCascade, List.mem_filter, Bool.not_eq_true'] at hm
    exact ⟨hm.1, by simpa using hm.2⟩
  · intro v hv
    simp only [deleteSensorsCascade, List.mem_filter, Bool.not_eq_true'] at hv
    exact ⟨hv.1, by simpa using hv.2⟩

/-- A sensor of `db` whose room is listed in `rids` has its id in
`sensorIdsOfRooms db rids`. -/
theorem mem_sensorIdsOfRooms (db : DB) (rids : List Nat) (s : SensorRow)
    (hs : s ∈ db.sensors) (hr : s.room_id ∈ rids) :
    s.id ∈ sensorIdsOfRooms db rids := by
  have hf : s ∈ db.sensors.filter (fun t => rids.contains t.room_id) := by
    rw [List.mem_filter]
    refine ⟨hs, ?_⟩
    simpa using hr
  exact List.mem_map_of_mem (fun t => t.id) hf

/-- C9: `get_measurement` fails atomically on its early error paths:
when the sensor id does not exist, or when the HTTP GET of the data
endpoint returns a status other than 200, it returns no measurement,
raises no exception, and leaves the database exactly unchanged. -/
theorem c9_get_measurement_error_paths_atomic (net : String → HttpResult)
    (now : Nat) (db : DB) (sid : Nat) :
    (db.sensors.find? (fun t => t.id == sid) = none →
      get_measurement net now db sid = ⟨none, false, db, []⟩) ∧
    (∀ s, db.sensors.find? (fun t => t.id == sid) = some s →
      ∀ ep, s.data_endpoint = some ep →
      ∀ status body, net (s.url ++ ep) = .resp status body → status ≠ 200 →
      get_measurement net now db sid = ⟨none, false, db, [s.url ++ ep]⟩) := by
  constructor
  · intro h; simp [get_measurement, h]
  · intro s hs ep hep status body hnet hst
    simp [get_measurement, hs, hep, hnet, hst]

/-- C9 witness: polling the unknown sensor id 99 of `wDB`, and polling
sensor 1 against a network that answers 500, both leave `wDB` unchanged
and return nothing. -/
theorem c9_witness :
    get_measurement wNet 7 wDB 99 = ⟨none, false, wDB, []⟩ ∧
    get_measurement (fun _ => .resp 500 none) 7 wDB 1 =
      ⟨none, false, wDB, ["http://sensor.local/data"]⟩ := by
  constructor
  · exact (c9_get_measurement_error_paths_atomic wNet 7 wDB 99).1 (by decide)
  · exact (c9_get_measurement_error_paths_atomic (fun _ => .resp 500 none) 7 wDB 1).2
      wSensor (by decide) "/data" rfl 500 none rfl (by decide)

/-- C10: a toggle request on a sensor whose `relay_endpoint` is not
configured (NULL or empty) returns HTTP 400 with a message naming the
sensor, issues no outgoing HTTP request, takes no measurement, and
leaves the database unchanged. -/
theorem c10_toggle_missing_relay_endpoint (net : String → HttpResult)
    (now : Nat) (db : DB) (sid : Nat) (state : Option String) (s : SensorRow)
    (hfind : db.sensors.find? (fun t => t.id == sid) = some s)
    (hrel : s.relay_endpoint = none ∨ s.relay_endpoint = some "") :
    toggle_sensor_relay net now db sid state =
      ⟨400, "Sensor " ++ s.name ++ " has no relay endpoint configured.",
        db, []⟩ := by
  rcases hrel with h | h <;> simp [toggle_sensor_relay, hfind, h]

/-- C10 witness: toggling sensor 2 of `wDB` (no relay endpoint) answers
400 naming "lamp", with no outgoing request and `wDB` unchanged. -/
theorem c10_witness :
    toggle_sensor_relay wNet 0 wDB 2 (some "on") =
      ⟨400, "Sensor lamp has no relay endpoint configured.", wDB, []⟩ := by
  exact c10_toggle_missing_relay_endpoint wNet 0 wDB 2 (some "on")
    wSensorNoRelay (by decide) (Or.inl rfl)

/-- C2, evaluated at the failing inputs: by Python's precedence the
argument of `requests.get` in `toggle_relay` is
`(sensor.url + sensor.relay_endpoint + 1) if new_state == "on" else 0`,
so for state "on" the string+int addition raises `TypeError` (caught:
no request at all is issued), and for any other state `requests.get(0)`
is called with the integer 0 instead of the suffixed URL.  The route
`toggle_sensor_relay`, by contrast, does issue the GET the specification
describes. -/
theorem c2_toggle_relay_precedence_bug :
    toggle_relay wSensor "on" = RelayAction.caughtError ∧
    toggle_relay wSensor "off" = RelayAction.requestArg (PyVal.int 0) ∧
    spec_relay_url wSensor "/relay?state=" "on" =
      "http://sensor.local/relay?state=1" ∧
    spec_relay_url wSensor "/relay?state=" "off" =
      "http://sensor.local/relay?state=0" ∧
    (toggle_sensor_relay wNet 0 wDB 1 (some "on")).trace.head? =
      some "http://sensor.local/relay?state=1" := by
  exact ⟨rfl, rfl, rfl, rfl, rfl⟩

/-- C8: sensor URLs are not unique — two `add_sensor` requests with the
same url both insert, yielding two distinct rows with that url — and
measurement values are stored unchanged with no range check: any float
or int value whatsoever is stored as-is. -/
theorem c8_no_url_uniqueness_no_range_check (db : DB) (rid1 rid2 : Nat)
    (n1 n2 u : String) (e1 r1 e2 r2 : Option String) :
    (∃ s1 s2,
      s1 ∈ (add_sensor (add_sensor db rid1 n1 u e1 r1) rid2 n2 u e2 r2).sensors ∧
      s2 ∈ (add_sensor (add_sensor db rid1 n1 u e1 r1) rid2 n2 u e2 r2).sensors ∧
      s1.id ≠ s2.id ∧ s1.url = u ∧ s2.url = u) ∧
    (∀ (mid : Nat) (tn : String) (q : Rat), ∃ tid,
      (ingestItems db mid [(tn, PyVal.float q)]).mvalues =
        db.mvalues ++ [⟨db.nextValueId, q, mid, tid⟩]) ∧
    (∀ (mid : Nat) (tn : String) (z : Int), ∃ tid,
      (ingestItems db mid [(tn, PyVal.int z)]).mvalues =
        db.mvalues ++ [⟨db.nextValueId, (z : Rat), mid, tid⟩]) := by
  refine ⟨⟨⟨db.nextSensorId, n1, u, e1, r1, rid1⟩,
          ⟨db.nextSensorId + 1, n2, u, e2, r2, rid2⟩, ?_, ?_, by simp, rfl, rfl⟩,
    ?_, ?_⟩
  · simp [add_sensor]
  · simp [add_sensor]
  · intro mid tn q
    cases hfind : db.mtypes.find? (fun t => t.name == tn) with
    | none => exact ⟨db.nextTypeId, by simp [ingestItems, isinstanceIntFloat, hfind, pyToFloat]⟩
    | some t => exact ⟨t.id, by simp [ingestItems, isinstanceIntFloat, hfind, pyToFloat]⟩
  · intro mid tn z
    cases hfind : db.mtypes.find? (fun t => t.name == tn) with
    | none => exact ⟨db.nextTypeId, by simp [ingestItems, isinstanceIntFloat, hfind, pyToFloat]⟩
    | some t => exact ⟨t.id, by simp [ingestItems, isinstanceIntFloat, hfind, pyToFloat]⟩

/-- What survives `delete_home`: no home with the deleted id, none of its
rooms, none of their sensors, measurements, or values. -/
theorem delete_home_spec (db : DB) (hid : Nat) (dbh : DB)
    (h : delete_home db hid = some dbh) :
    (∀ hm ∈ dbh.homes, hm.id ≠ hid) ∧
    (∀ r ∈ dbh.rooms, r.home_id ≠ hid) ∧
    (∀ s ∈ dbh.sensors, ¬ s.room_id ∈ roomIdsOfHome db hid) ∧
    (∀ m ∈ dbh.measurements,
      ¬ m.sensor_id ∈ sensorIdsOfRooms db (roomIdsOfHome db hid)) ∧
    (∀ v ∈ dbh.mvalues,
      ¬ v.measurement_id ∈
        measurementIdsOfSensors db (sensorIdsOfRooms db (roomIdsOfHome db hid))) := by
  rw [delete_home] at h
  split at h
  · replace h := Option.some.inj h
    subst h
    obtain ⟨hsens, hmeas, hval, _, _, _⟩ :=
      deleteSensorsCascade_spec db (sensorIdsOfRooms db (roomIdsOfHome db hid))
    refine ⟨?_, ?_, ?_, ?_, ?_⟩
    · intro hm hmem
      simp only [List.mem_filter, Bool.not_eq_true'] at hmem
      simpa using hmem.2
    · intro r hmem
      simp only [List.mem_filter, Bool.not_eq_true'] at hmem
      simpa using hmem.2
    · intro s hmem
      obtain ⟨hsdb, hsid⟩ := hsens s hmem
      intro hrm
      exact hsid (mem_sensorIdsOfRooms db _ s hsdb hrm)
    · intro m hmem
      exact (hmeas m hmem).2
    · intro v hmem
      exact (hval v hmem).2
  · exact absurd h (by simp)

/-- What survives `delete_room`: no room with the deleted id, none of its
sensors, their measurements, or those measurements' values. -/
theorem delete_room_spec (db : DB) (rid : Nat) (dbr : DB)
    (h : delete_room db rid = some dbr) :
    (∀ r ∈ dbr.rooms, r.id ≠ rid) ∧
    (∀ s ∈ dbr.sensors, s.room_id ≠ rid) ∧
    (∀ m ∈ dbr.measurements, ¬ m.sensor_id ∈ sensorIdsOfRooms db [rid]) ∧
    (∀ v ∈ dbr.mvalues,
      ¬ v.measurement_id ∈
        measurementIdsOfSensors db (sensorIdsOfRooms db [rid])) := by
  rw [delete_room] at h
  split at h
  · replace h := Option.some.inj h
    subst h
    obtain ⟨hsens, hmeas, hval, _, _, _⟩ :=
      deleteSensorsCascade_spec db (sensorIdsOfRooms db [rid])
    refine ⟨?_, ?_, ?_, ?_⟩
    · intro r hmem
      simp only [List.mem_filter, Bool.not_eq_true'] at hmem
      simpa using hmem.2
    · intro s hmem
      obtain ⟨hsdb, hsid⟩ := hsens s hmem
      intro hrm
      exact hsid (mem_sensorIdsOfRooms db [rid] s hsdb (by simp [hrm]))
    · intro m hmem
      exact (hmeas m hmem).2
    · intro v hmem
      exact (hval v hmem).2
  · exact absurd h (by simp)

/-- What survives `delete_sensor`: no sensor with the deleted id, none of
its measurements, none of their values. -/
theorem delete_sensor_spec (db : DB) (sid : Nat) (dbs : DB)
    (h : delete_sensor db sid = some dbs) :
    (∀ s ∈ dbs.sensors, s.id ≠ sid) ∧
    (∀ m ∈ dbs.measurements, m.sensor_id ≠ sid) ∧
    (∀ v ∈ dbs.mvalues,
      ¬ v.measurement_id ∈ measurementIdsOfSensors db [sid]) := by
  rw [delete_sensor] at h
  split at h
  · replace h := Option.some.inj h
    subst h
    obtain ⟨hsens, hmeas, hval, _, _, _⟩ := deleteSensorsCascade_spec db [sid]
    refine ⟨?_, ?_, ?_⟩
    · intro s hmem
      have := (hsens s hmem).2
      simpa using this
    · intro m hmem
      have := (hmeas m hmem).2
      simpa using this
    · intro v hmem
      exact (hval v hmem).2
  · exact absurd h (by simp)

/-- C5: deleting a parent cascades to all descendants.  After
`delete_home` no room of the home, no sensor of those rooms, no
measurement of those sensors and no value of those measurements remains;
after `delete_room` the room's sensors and their descendants are gone;
after `delete_sensor` the sensor's measurements and their values are
gone. -/
theorem c5_delete_cascades (db : DB) (hid rid sid : Nat) (dbh dbr dbs : DB)
    (h1 : delete_home db hid = some dbh)
    (h2 : delete_room db rid = some dbr)
    (h3 : delete_sensor db sid = some dbs) :
    (∀ hm ∈ dbh.homes, hm.id ≠ hid) ∧
    (∀ r ∈ dbh.rooms, r.home_id ≠ hid) ∧
    (∀ s ∈ dbh.sensors, ¬ s.room_id ∈ roomIdsOfHome db hid) ∧
    (∀ m ∈ dbh.measurements,
      ¬ m.sensor_id ∈ sensorIdsOfRooms db (roomIdsOfHome db hid)) ∧
    (∀ v ∈ dbh.mvalues,
      ¬ v.measurement_id ∈
        measurementIdsOfSensors db (sensorIdsOfRooms db (roomIdsOfHome db hid))) ∧
    (∀ r ∈ dbr.rooms, r.id ≠ rid) ∧
    (∀ s ∈ dbr.sensors, s.room_id ≠ rid) ∧
    (∀ m ∈ dbr.measurements, ¬ m.sensor_id ∈ sensorIdsOfRooms db [rid]) ∧
    (∀ v ∈ dbr.mvalues,
      ¬ v.measurement_id ∈
        measurementIdsOfSensors db (sensorIdsOfRooms db [rid])) ∧
    (∀ s ∈ dbs.sensors, s.id ≠ sid) ∧
    (∀ m ∈ dbs.measurements, m.sensor_id ≠ sid) ∧
    (∀ v ∈ dbs.mvalues,
      ¬ v.measurement_id ∈ measurementIdsOfSensors db [sid]) := by
  obtain ⟨a1, a2, a3, a4, a5⟩ := delete_home_spec db hid dbh h1
  obtain ⟨b1, b2, b3, b4⟩ := delete_room_spec db rid dbr h2
  obtain ⟨c1, c2, c3⟩ := delete_sensor_spec db sid dbs h3
  exact ⟨a1, a2, a3, a4, a5, b1, b2, b3, b4, c1, c2, c3⟩

/-- C5 witness: deleting home 1, room 1 or sensor 1 from the concrete
database `wDB` (which holds a measurement of sensor 1 with one value)
leaves no orphaned descendant rows. -/
theorem c5_witness :
    (∀ hm ∈ wDBAfterDeleteHome.homes, hm.id ≠ 1) ∧
    (∀ r ∈ wDBAfterDeleteHome.rooms, r.home_id ≠ 1) ∧
    (∀ s ∈ wDBAfterDeleteHome.sensors, ¬ s.room_id ∈ roomIdsOfHome wDB 1) ∧
    (∀ m ∈ wDBAfterDeleteHome.measurements,
      ¬ m.sensor_id ∈ sensorIdsOfRooms wDB (roomIdsOfHome wDB 1)) ∧
    (∀ v ∈ wDBAfterDeleteHome.mvalues,
      ¬ v.measurement_id ∈
        measurementIdsOfSensors wDB (sensorIdsOfRooms wDB (roomIdsOfHome wDB 1))) ∧
    (∀ r ∈ wDBAfterDeleteRoom.rooms, r.id ≠ 1) ∧
    (∀ s ∈ wDBAfterDeleteRoom.sensors, s.room_id ≠ 1) ∧
    (∀ m ∈ wDBAfterDeleteRoom.measurements,
      ¬ m.sensor_id ∈ sensorIdsOfRooms wDB [1]) ∧
    (∀ v ∈ wDBAfterDeleteRoom.mvalues,
      ¬ v.measurement_id ∈
        measurementIdsOfSensors wDB (sensorIdsOfRooms wDB [1])) ∧
    (∀ s ∈ wDBAfterDeleteSensor.sensors, s.id ≠ 1) ∧
    (∀ m ∈ wDBAfterDeleteSensor.measurements, m.sensor_id ≠ 1) ∧
    (∀ v ∈ wDBAfterDeleteSensor.mvalues,
      ¬ v.measurement_id ∈ measurementIdsOfSensors wDB [1]) := by
  exact c5_delete_cascades wDB 1 1 1
    wDBAfterDeleteHome wDBAfterDeleteRoom wDBAfterDeleteSensor
    (by decide) (by decide) (by decide)

/-- C6: `MeasurementType` names are de-duplicated by lookup-or-create:
ingesting a value under a name that already has a type row creates no new
type row and references the existing one; ingesting under an unknown name
creates exactly one new type row with that name and placeholder unit
"unit"; and a polling pass preserves pairwise-distinct type names. -/
theorem c6_mtype_dedup (db : DB) (mid : Nat) (tn : String) (v : PyVal)
    (hv : isinstanceIntFloat v = true) :
    (∀ t, db.mtypes.find? (fun u => u.name == tn) = some t →
      (ingestItems db mid [(tn, v)]).mtypes = db.mtypes ∧
      (ingestItems db mid [(tn, v)]).mvalues =
        db.mvalues ++ [⟨db.nextValueId, pyToFloat v, mid, t.id⟩]) ∧
    (db.mtypes.find? (fun u => u.name == tn) = none →
      (ingestItems db mid [(tn, v)]).mtypes =
        db.mtypes ++ [⟨db.nextTypeId, tn, "unit"⟩] ∧
      (ingestItems db mid [(tn, v)]).mvalues =
        db.mvalues ++ [⟨db.nextValueId, pyToFloat v, mid, db.nextTypeId⟩]) ∧
    (∀ (net : String → HttpResult) (now : Nat) (sid : Nat),
      (db.mtypes.map (fun t => t.name)).Nodup →
      ((get_measurement net now db sid).db.mtypes.map (fun t => t.name)).Nodup) := by
  refine ⟨?_, ?_, ?_⟩
  · intro t hfind
    constructor <;> simp [ingestItems, hv, hfind]
  · intro hfind
    constructor <;> simp [ingestItems, hv, hfind]
  · intro net now sid h
    exact get_measurement_mtypes_nodup net now db sid h

/-- C6 witness: against `wDB` (one type, named "power"), ingesting a
"power" value reuses type 1 and adds no type row, ingesting a "humidity"
value creates exactly the type row ⟨2, "humidity", "unit"⟩, and a poll of
sensor 1 keeps type names pairwise distinct. -/
theorem c6_witness :
    ((ingestItems wDB 2 [("power", PyVal.float 3)]).mtypes = wDB.mtypes ∧
     (ingestItems wDB 2 [("power", PyVal.float 3)]).mvalues =
       wDB.mvalues ++ [⟨2, 3, 2, 1⟩]) ∧
    ((ingestItems wDB 2 [("humidity", PyVal.float 3)]).mtypes =
       wDB.mtypes ++ [⟨2, "humidity", "unit"⟩] ∧
     (ingestItems wDB 2 [("humidity", PyVal.float 3)]).mvalues =
       wDB.mvalues ++ [⟨2, 3, 2, 2⟩]) ∧
    ((get_measurement wNet 0 wDB 1).db.mtypes.map (fun t => t.name)).Nodup := by
  refine ⟨(c6_mtype_dedup wDB 2 "power" (PyVal.float 3) rfl).1
      ⟨1, "power", "unit"⟩ (by decide),
    (c6_mtype_dedup wDB 2 "humidity" (PyVal.float 3) rfl).2.1 (by decide),
    (c6_mtype_dedup wDB 2 "humidity" (PyVal.float 3) rfl).2.2 wNet 0 1
      (by decide)⟩

/-- C1 counterexample: a JSON body whose only entry holds the boolean
`true` has zero entries whose value is numeric (an int or a float) in
the JSON sense, yet polling it stores one `MeasurementValue` — of value
1 — instead of skipping the entry, because Python's
`isinstance(True, int)` is true. -/
theorem c1_counterexample :
    ([("relay", PyVal.bool true)].filter (fun p => isJsonNumber p.2)).length
      = 0 ∧
    (get_measurement
      (fun _ => .resp 200 (some (.dict [("relay", PyVal.bool true)])))
      0 wDB1 1).db.mvalues.length = 1 ∧
    (get_measurement
      (fun _ => .resp 200 (some (.dict [("relay", PyVal.bool true)])))
      0 wDB1 1).db.mvalues.map (fun v => v.value) = [1] := by
  exact ⟨rfl, rfl, rfl⟩

/-- C1 (amended): for every successfully polled sensor (id found, GET of
the data endpoint answers 200, body a JSON object), `get_measurement`
inserts exactly one new `Measurement` for that sensor, timestamped with
the current time, with one `MeasurementValue` per JSON entry whose value
passes `isinstance(value, (int, float))` — so ints, floats and also
booleans, `bool` being a subclass of `int` — while entries with other
values are skipped; a measurement with zero values is still committed. -/
theorem c1_get_measurement_ingestion (net : String → HttpResult) (now : Nat)
    (db : DB) (sid : Nat) (s : SensorRow) (ep : String)
    (items : List (String × PyVal))
    (hs : db.sensors.find? (fun t => t.id == sid) = some s)
    (hep : s.data_endpoint = some ep)
    (hnet : net (s.url ++ ep) = .resp 200 (some (.dict items))) :
    ∃ m, (get_measurement net now db sid).result = some m ∧
      m.sensor_id = s.id ∧ m.timestamp = now ∧
      (get_measurement net now db sid).db.measurements =
        db.measurements ++ [m] ∧
      (get_measurement net now db sid).db.mvalues.length =
        db.mvalues.length +
          (items.filter (fun p => isinstanceIntFloat p.2)).length ∧
      ∀ mv ∈ (get_measurement net now db sid).db.mvalues,
        mv ∈ db.mvalues ∨ mv.measurement_id = m.id := by
  have hsucc := get_measurement_success net now db sid s ep items hs hep hnet
  refine ⟨⟨db.nextMeasurementId, s.id, now⟩, ?_, rfl, rfl, ?_, ?_, ?_⟩
  · rw [hsucc]
  · rw [hsucc]
    simp [ingestItems_measurements]
  · rw [hsucc]
    simp [ingestItems_mvalues_length]
  · rw [hsucc]
    intro mv hmv
    obtain ⟨new, hnew, hmem⟩ := ingestItems_mvalues_spec items
      { db with
        measurements := db.measurements ++ [⟨db.nextMeasurementId, s.id, now⟩],
        nextMeasurementId := db.nextMeasurementId + 1 }
      db.nextMeasurementId
    simp only [hnew] at hmv
    rcases List.mem_append.mp hmv with h | h
    · exact Or.inl h
    · exact Or.inr (hmem mv h).1

/-- C1 witness: polling sensor 1 of `wDB` against `wNet` (body `wBody`:
a float, a boolean and a string entry) inserts one measurement with two
values — the float and the boolean — and skips the string entry. -/
theorem c1_witness :
    ∃ m, (get_measurement wNet 11 wDB 1).result = some m ∧
      m.sensor_id = wSensor.id ∧ m.timestamp = 11 ∧
      (get_measurement wNet 11 wDB 1).db.measurements =
        wDB.measurements ++ [m] ∧
      (get_measurement wNet 11 wDB 1).db.mvalues.length =
        wDB.mvalues.length +
          (wBody.filter (fun p => isinstanceIntFloat p.2)).length ∧
      ∀ mv ∈ (get_measurement wNet 11 wDB 1).db.mvalues,
        mv ∈ wDB.mvalues ∨ mv.measurement_id = m.id := by
  exact c1_get_measurement_ingestion wNet 11 wDB 1 wSensor "/data" wBody
    (by decide) rfl rfl

/-- When `get_measurement` returns a measurement, its id is the fresh
`measurement` primary key and its timestamp is the current time. -/
theorem get_measurement_result_some (net : String → HttpResult) (now : Nat)
    (db : DB) (sid : Nat) (m : MeasurementRow)
    (h : (get_measurement net now db sid).result = some m) :
    m.id = db.nextMeasurementId ∧ m.timestamp = now := by
  rcases get_measurement_cases net now db sid with ⟨_, hres⟩ | ⟨s, ep, items, _, _, _, heq⟩
  · rw [hres] at h; cases h
  · rw [heq] at h
    obtain rfl := Option.some.inj h
    exact ⟨rfl, rfl⟩

/-- C7: every `MeasurementValue` row ever present references exactly one
measurement and one type, and no operation rewrites these references:
after `get_measurement` every value row is either a pre-existing row,
unchanged, or a fresh row referencing the measurement returned by that
very poll and an existing type; the add routes never touch value rows;
the delete routes only remove them; and the toggle route at most adds
rows referencing the one measurement its own poll created. -/
theorem c7_mvalue_references (net : String → HttpResult) (now : Nat)
    (db : DB) (sid : Nat) :
    (∀ mv ∈ (get_measurement net now db sid).db.mvalues,
      mv ∈ db.mvalues ∨
      ∃ m, (get_measurement net now db sid).result = some m ∧
        mv.measurement_id = m.id ∧
        ∃ t ∈ (get_measurement net now db sid).db.mtypes,
          t.id = mv.measurement_type_id) ∧
    (∀ name, (add_home db name).mvalues = db.mvalues) ∧
    (∀ hid name, (add_room db hid name).mvalues = db.mvalues) ∧
    (∀ rid name url de re, (add_sensor db rid name url de re).mvalues = db.mvalues) ∧
    (∀ hid dbh, delete_home db hid = some dbh →
      ∀ v ∈ dbh.mvalues, v ∈ db.mvalues) ∧
    (∀ rid dbr, delete_room db rid = some dbr →
      ∀ v ∈ dbr.mvalues, v ∈ db.mvalues) ∧
    (∀ sd dbs, delete_sensor db sd = some dbs →
      ∀ v ∈ dbs.mvalues, v ∈ db.mvalues) ∧
    (∀ state, ∀ mv ∈ (toggle_sensor_relay net now db sid state).db.mvalues,
      mv ∈ db.mvalues ∨
      (mv.measurement_id = db.nextMeasurementId ∧
       ∃ t ∈ (toggle_sensor_relay net now db sid state).db.mtypes,
         t.id = mv.measurement_type_id)) := by
  refine ⟨get_measurement_mvalues net now db sid, fun _ => rfl,
    fun _ _ => rfl, fun _ _ _ _ _ => rfl, ?_, ?_, ?_, ?_⟩
  · intro hid dbh h
    rw [delete_home] at h
    split at h
    · replace h := Option.some.inj h
      subst h
      obtain ⟨_, _, hval, _, _, _⟩ :=
        deleteSensorsCascade_spec db (sensorIdsOfRooms db (roomIdsOfHome db hid))
      exact fun v hv => (hval v hv).1
    · exact absurd h (by simp)
  · intro rid dbr h
    rw [delete_room] at h
    split at h
    · replace h := Option.some.inj h
      subst h
      obtain ⟨_, _, hval, _, _, _⟩ :=
        deleteSensorsCascade_spec db (sensorIdsOfRooms db [rid])
      exact fun v hv => (hval v hv).1
    · exact absurd h (by simp)
  · intro sd dbs h
    rw [delete_sensor] at h
    split at h
    · replace h := Option.some.inj h
      subst h
      obtain ⟨_, _, hval, _, _, _⟩ := deleteSensorsCascade_spec db [sd]
      exact fun v hv => (hval v hv).1
    · exact absurd h (by simp)
  · intro state
    cases hfind : db.sensors.find? (fun t => t.id == sid) with
    | none =>
      simp only [toggle_sensor_relay, hfind]
      exact fun mv hmv => Or.inl hmv
    | some s =>
      cases hrel : s.relay_endpoint with
      | none =>
        simp only [toggle_sensor_relay, hfind, hrel]
        exact fun mv hmv => Or.inl hmv
      | some rep =>
        by_cases hre : rep == ""
        · simp only [toggle_sensor_relay, hfind, hrel, hre, if_pos]
          exact fun mv hmv => Or.inl hmv
        · have hdb : (toggle_sensor_relay net now db sid state).db =
              (get_measurement net now db s.id).db := by
            simp only [toggle_sensor_relay, hfind, hrel, hre, if_neg,
              Bool.false_eq_true]
            by_cases hr : (get_measurement net now db s.id).raised <;> simp [hr]
          rw [hdb]
          intro mv hmv
          rcases get_measurement_mvalues net now db s.id mv hmv with h | ⟨m, hm, hmid, t, ht, htid⟩
          · exact Or.inl h
          · refine Or.inr ⟨?_, t, ht, htid⟩
            rw [hmid]
            exact (get_measurement_result_some net now db s.id m hm).1

/-- C7 witness: instantiated at `wNet`, `wDB` and sensor 1, including
the delete routes applied at home 1, room 1 and sensor 1 and a toggle of
sensor 1. -/
theorem c7_witness :
    (∀ mv ∈ (get_measurement wNet 0 wDB 1).db.mvalues,
      mv ∈ wDB.mvalues ∨
      ∃ m, (get_measurement wNet 0 wDB 1).result = some m ∧
        mv.measurement_id = m.id ∧
        ∃ t ∈ (get_measurement wNet 0 wDB 1).db.mtypes,
          t.id = mv.measurement_type_id) ∧
    ((add_home wDB "guest").mvalues = wDB.mvalues) ∧
    ((add_room wDB 1 "attic").mvalues = wDB.mvalues) ∧
    ((add_sensor wDB 1 "s2" "http://sensor.local" none none).mvalues =
      wDB.mvalues) ∧
    (∀ v ∈ wDBAfterDeleteHome.mvalues, v ∈ wDB.mvalues) ∧
    (∀ v ∈ wDBAfterDeleteRoom.mvalues, v ∈ wDB.mvalues) ∧
    (∀ v ∈ wDBAfterDeleteSensor.mvalues, v ∈ wDB.mvalues) ∧
    (∀ mv ∈ (toggle_sensor_relay wNet 0 wDB 1 (some "on")).db.mvalues,
      mv ∈ wDB.mvalues ∨
      (mv.measurement_id = wDB.nextMeasurementId ∧
       ∃ t ∈ (toggle_sensor_relay wNet 0 wDB 1 (some "on")).db.mtypes,
         t.id = mv.measurement_type_id)) := by
  obtain ⟨g1, g2, g3, g4, g5, g6, g7, g8⟩ := c7_mvalue_references wNet 0 wDB 1
  exact ⟨g1, g2 "guest", g3 1 "attic", g4 1 "s2" "http://sensor.local" none none,
    g5 1 wDBAfterDeleteHome (by decide), g6 1 wDBAfterDeleteRoom (by decide),
    g7 1 wDBAfterDeleteSensor (by decide), g8 (some "on")⟩

/-- C3: each round of the background polling loop iterates over all
sensors in the database, GETs each sensor's data URL, parses and ingests
the JSON (inserting the Measurement and MeasurementValue rows), then
sleeps for the configured interval — whose default is 60 seconds —
before the next round; the loop repeats round after round. -/
theorem c3_background_polling_loop (interval : Nat)
    (net : Nat → String → HttpResult) (clock : Nat → Nat) (db : DB) (n : Nat)
    (hprev : (background_task interval net clock db n).2.2 = false)
    (hnd : ((background_task interval net clock db n).1.sensors.map
      (fun s => s.id)).Nodup)
    (hok : ∀ s ∈ (background_task interval net clock db n).1.sensors,
      ∃ ep items, s.data_endpoint = some ep ∧
        net n (s.url ++ ep) = .resp 200 (some (.dict items))) :
    (background_task interval net clock db (n + 1)).2.1 =
      (background_task interval net clock db n).2.1 ++
      ((background_task interval net clock db n).1.sensors.map
        (fun s => Event.get (s.url ++ s.data_endpoint.getD ""))) ++
      [Event.sleep interval] ∧
    (background_task interval net clock db (n + 1)).1.measurements.length =
      (background_task interval net clock db n).1.measurements.length +
        (background_task interval net clock db n).1.sensors.length ∧
    (background_task interval net clock db (n + 1)).2.2 = false ∧
    background_task_default_interval = 60 := by
  obtain ⟨hr, htr, hlen⟩ := pollSensors_success
    (background_task interval net clock db n).1.sensors (net n) (clock n)
    (background_task interval net clock db n).1
    (find?_sensor_of_nodup _ hnd) hok
  have hround : background_round interval (net n) (clock n)
      (background_task interval net clock db n).1 =
      ((pollSensors (net n) (clock n) (background_task interval net clock db n).1
          ((background_task interval net clock db n).1.sensors.map (fun s => s.id))).1,
       ((background_task interval net clock db n).1.sensors.map
          (fun s => Event.get (s.url ++ s.data_endpoint.getD ""))) ++
         [Event.sleep interval],
       false) := by
    rw [background_round, get_measurements]
    simp [hr, htr, List.map_map, Function.comp]
  have hstep : background_task interval net clock db (n + 1) =
      ((pollSensors (net n) (clock n) (background_task interval net clock db n).1
          ((background_task interval net clock db n).1.sensors.map (fun s => s.id))).1,
       (background_task interval net clock db n).2.1 ++
         (((background_task interval net clock db n).1.sensors.map
            (fun s => Event.get (s.url ++ s.data_endpoint.getD ""))) ++
          [Event.sleep interval]),
       false) := by
    rw [background_task]
    simp only [hprev, Bool.false_eq_true, if_false]
    rw [hround]
  refine ⟨?_, ?_, ?_, rfl⟩
  · rw [hstep]
    simp [List.append_assoc]
  · rw [hstep]
    exact hlen
  · rw [hstep]

/-- C3 witness: one round over the one-sensor database `wDB1`, against a
network answering every URL with an empty JSON object: the round GETs
the sensor's data URL, inserts one measurement, sleeps 60 seconds, and
does not raise. -/
theorem c3_witness :
    (background_task 60 (fun _ => wNetAll) (fun _ => 5) wDB1 (0 + 1)).2.1 =
      (background_task 60 (fun _ => wNetAll) (fun _ => 5) wDB1 0).2.1 ++
      ((background_task 60 (fun _ => wNetAll) (fun _ => 5) wDB1 0).1.sensors.map
        (fun s => Event.get (s.url ++ s.data_endpoint.getD ""))) ++
      [Event.sleep 60] ∧
    (background_task 60 (fun _ => wNetAll) (fun _ => 5) wDB1 (0 + 1)).1.measurements.length =
      (background_task 60 (fun _ => wNetAll) (fun _ => 5) wDB1 0).1.measurements.length +
        (background_task 60 (fun _ => wNetAll) (fun _ => 5) wDB1 0).1.sensors.length ∧
    (background_task 60 (fun _ => wNetAll) (fun _ => 5) wDB1 (0 + 1)).2.2 = false ∧
    background_task_default_interval = 60 := by
  refine c3_background_polling_loop 60 (fun _ => wNetAll) (fun _ => 5) wDB1 0
    rfl (by decide) ?_
  intro s hs
  have hsw : s = wSensor := by
    have h1 : s ∈ [wSensor] := hs
    simpa using h1
  subst hsw
  exact ⟨"/data", [], rfl, rfl⟩

/-- C4: the polling loop has no retry and no failure isolation: when the
fetch of one sensor raises, that round GETs the failed sensor exactly
once (no retry), polls none of the sensors listed after it, performs no
sleep, and the exception kills the loop — every later round is a no-op,
so the failed sensor is never retried. -/
theorem c4_no_retry_no_isolation (interval : Nat)
    (net : Nat → String → HttpResult) (clock : Nat → Nat) (db : DB) (n : Nat)
    (pre post : List SensorRow) (bad : SensorRow) (bep : String)
    (hprev : (background_task interval net clock db n).2.2 = false)
    (hsens : (background_task interval net clock db n).1.sensors =
      pre ++ bad :: post)
    (hnd : ((pre ++ bad :: post).map (fun s => s.id)).Nodup)
    (hok : ∀ s ∈ pre, ∃ ep items, s.data_endpoint = some ep ∧
      net n (s.url ++ ep) = .resp 200 (some (.dict items)))
    (hbep : bad.data_endpoint = some bep)
    (hbad : net n (bad.url ++ bep) = .exn) :
    (background_task interval net clock db (n + 1)).2.1 =
      (background_task interval net clock db n).2.1 ++
      (pre.map (fun s => Event.get (s.url ++ s.data_endpoint.getD ""))) ++
      [Event.get (bad.url ++ bep)] ∧
    (background_task interval net clock db (n + 1)).2.2 = true ∧
    ∀ k, background_task interval net clock db (n + 1 + k) =
      background_task interval net clock db (n + 1) := by
  have hfind : ∀ s ∈ pre ++ bad :: post,
      (background_task interval net clock db n).1.sensors.find?
        (fun t => t.id == s.id) = some s := by
    intro s hs
    rw [hsens]
    exact find?_sensor_of_nodup _ hnd s hs
  obtain ⟨hr, htr⟩ := pollSensors_raise pre (net n) (clock n)
    (background_task interval net clock db n).1 bad bep
    (post.map (fun s => s.id))
    (fun s hs => hfind s (List.mem_append_left _ hs)) hok
    (hfind bad (List.mem_append_right _ (List.mem_cons_self bad post)))
    hbep hbad
  have hids : (background_task interval net clock db n).1.sensors.map
      (fun s => s.id) =
      pre.map (fun s => s.id) ++ bad.id :: post.map (fun s => s.id) := by
    rw [hsens]; simp
  have hround : background_round interval (net n) (clock n)
      (background_task interval net clock db n).1 =
      ((pollSensors (net n) (clock n) (background_task interval net clock db n).1
          (pre.map (fun s => s.id) ++ bad.id :: post.map (fun s => s.id))).1,
       (pre.map (fun s => Event.get (s.url ++ s.data_endpoint.getD ""))) ++
         [Event.get (bad.url ++ bep)],
       true) := by
    rw [background_round, get_measurements, hids]
    simp [hr, htr, List.map_map, Function.comp]
  have hstep : background_task interval net clock db (n + 1) =
      ((pollSensors (net n) (clock n) (background_task interval net clock db n).1
          (pre.map (fun s => s.id) ++ bad.id :: post.map (fun s => s.id))).1,
       (background_task interval net clock db n).2.1 ++
         ((pre.map (fun s => Event.get (s.url ++ s.data_endpoint.getD ""))) ++
          [Event.get (bad.url ++ bep)]),
       true) := by
    rw [background_task]
    simp only [hprev, Bool.false_eq_true, if_false]
    rw [hround]
  refine ⟨?_, ?_, ?_⟩
  · rw [hstep]
    simp [List.append_assoc]
  · rw [hstep]
  · intro k
    exact background_task_raised_stable interval net clock db (n + 1)
      (by rw [hstep]) k

/-- C4 witness: over `wDB` and `wNet`, the round polls sensor 1 (which
succeeds), then sensor 2, whose fetch raises: sensor 2 is GET exactly
once, sensor 3 is never polled, there is no sleep, and every later round
is a no-op. -/
theorem c4_witness :
    (background_task 60 (fun _ => wNet) (fun _ => 0) wDB (0 + 1)).2.1 =
      (background_task 60 (fun _ => wNet) (fun _ => 0) wDB 0).2.1 ++
      ([wSensor].map (fun s => Event.get (s.url ++ s.data_endpoint.getD ""))) ++
      [Event.get "http://lamp.local/data"] ∧
    (background_task 60 (fun _ => wNet) (fun _ => 0) wDB (0 + 1)).2.2 = true ∧
    ∀ k, background_task 60 (fun _ => wNet) (fun _ => 0) wDB (0 + 1 + k) =
      background_task 60 (fun _ => wNet) (fun _ => 0) wDB (0 + 1) := by
  refine c4_no_retry_no_isolation 60 (fun _ => wNet) (fun _ => 0) wDB 0
    [wSensor] [wSensorLast] wSensorNoRelay "/data"
    rfl (by decide) (by decide) ?_ rfl rfl
  intro s hs
  have hsw : s = wSensor := by simpa using hs
  subst hsw
  exact ⟨"/data", wBody, rfl, rfl⟩

end EnergyDashboard
